import Mathlib

/-
Verification of the Lead Radar Settings client form script
(src/ftg_lead_radar/doctype/lead_radar_settings/lead_radar_settings.js).

The script registers one custom button on the "Lead Radar Settings" form.
Its click handler awaits a remote call to the method
"ftg_lead_radar.api.publish_config" (with freeze and no request
parameters), reads r?.message?.commit_url from the response, shows one of
two msgprint notifications, and then awaits frm.reload_doc().

The embedding below models JavaScript values, optional chaining, JS
truthiness, the encodeURI builtin, the frappe placeholder substitution
performed by the translation helper, and the click handler itself as a
function from the outcome of the remote call to the list of observable
UI events it emits together with the completion result of the async
handler (normal completion, or a propagated error).
-/

/-- A JavaScript value, as far as the script observes one: the response of
the remote call and its fields. Numbers are modelled as integers. -/
inductive JsVal where
  | undefined : JsVal
  | null : JsVal
  | bool : Bool → JsVal
  | num : Int → JsVal
  | str : String → JsVal
  | obj : List (String × JsVal) → JsVal

/-- Field lookup in an object literal: first binding wins, missing keys
give undefined, as JS property access on plain objects does. -/
def jsGetField : List (String × JsVal) → String → JsVal
  | [], _ => JsVal.undefined
  | (k, v) :: rest, key => if k = key then v else jsGetField rest key

/-- Plain JS property access v.k: throws a TypeError when the base is
undefined or null, looks fields up on objects, and yields undefined on
other primitives (boxing gives no such own property). -/
def jsMember (v : JsVal) (k : String) : Except String JsVal :=
  match v with
  | JsVal.undefined => Except.error "TypeError"
  | JsVal.null => Except.error "TypeError"
  | JsVal.obj fs => Except.ok (jsGetField fs k)
  | _ => Except.ok JsVal.undefined

/-- Optional chaining v?.k: short-circuits to undefined when the base is
undefined or null, otherwise behaves as plain property access. -/
def jsOptChain (v : JsVal) (k : String) : Except String JsVal :=
  match v with
  | JsVal.undefined => Except.ok JsVal.undefined
  | JsVal.null => Except.ok JsVal.undefined
  | _ => jsMember v k

/-- The extraction performed on line 9 of the script:
r?.message?.commit_url. -/
def extractCommitUrl (r : JsVal) : Except String JsVal :=
  match jsOptChain r "message" with
  | Except.error e => Except.error e
  | Except.ok m => jsOptChain m "commit_url"

/-- JS truthiness of a value, as tested by the if on line 10. -/
def truthy : JsVal → Bool
  | JsVal.undefined => false
  | JsVal.null => false
  | JsVal.bool b => b
  | JsVal.num n => n != 0
  | JsVal.str s => s != ""
  | JsVal.obj _ => true

/-- JS string coercion, as performed by template literal interpolation. -/
def jsToString : JsVal → String
  | JsVal.undefined => "undefined"
  | JsVal.null => "null"
  | JsVal.bool b => if b then "true" else "false"
  | JsVal.num n => toString n
  | JsVal.str s => s
  | JsVal.obj _ => "[object Object]"

/-- Uppercase hexadecimal digit, as produced by encodeURI. -/
def hexDigit (n : Nat) : Char :=
  if n < 10 then Char.ofNat (48 + n) else Char.ofNat (55 + n)

/-- UTF-8 byte sequence of a code point, for percent-encoding. -/
def utf8Bytes (n : Nat) : List Nat :=
  if n < 128 then [n]
  else if n < 2048 then [192 + n / 64, 128 + n % 64]
  else if n < 65536 then
    [224 + n / 4096, 128 + (n / 64) % 64, 128 + n % 64]
  else
    [240 + n / 262144, 128 + (n / 4096) % 64, 128 + (n / 64) % 64,
     128 + n % 64]

/-- Percent-encoding of one character: each UTF-8 byte becomes a percent
sign followed by two uppercase hex digits. -/
def percentBytes (c : Char) : List Char :=
  ((utf8Bytes c.toNat).map
    (fun b => ['%', hexDigit (b / 16), hexDigit (b % 16)])).flatten

/-- The characters encodeURI leaves unescaped besides ASCII letters and
digits: the URI reserved set, the unreserved marks, and the hash sign. -/
def encodeURISafeMarks : List Char :=
  ['#', ';', ',', '/', '?', ':', '@', '&', '=', '+', '$', '-', '_', '.',
   '!', '~', '*', Char.ofNat 39, '(', ')']

/-- Whether encodeURI leaves the character as it is. -/
def encodeURIKeeps (c : Char) : Bool :=
  c.isAlpha || c.isDigit || encodeURISafeMarks.contains c

/-- Character-list form of the encodeURI builtin. -/
def encodeURIChars : List Char → List Char
  | [] => []
  | c :: rest =>
      (if encodeURIKeeps c then [c] else percentBytes c) ++
        encodeURIChars rest

/-- The encodeURI builtin applied on line 14 of the script. -/
def encodeURI (s : String) : String :=
  String.mk (encodeURIChars s.data)

/-- Placeholder substitution of the frappe translation helper: a brace,
one digit, and a closing brace are replaced by the argument at that
index; translation itself is the identity here (no message catalog). -/
def formatChars : List Char → List String → List Char
  | [], _ => []
  | c1 :: c2 :: c3 :: rest, args =>
      if c1 = Char.ofNat 123 ∧ c3 = Char.ofNat 125 ∧ c2.isDigit then
        (args.getD (c2.toNat - 48) "").data ++ formatChars rest args
      else
        c1 :: formatChars (c2 :: c3 :: rest) args
  | c :: rest, args => c :: formatChars rest args

/-- The frappe translation helper with placeholder arguments. -/
def frappeTranslate (s : String) (args : List String) : String :=
  String.mk (formatChars s.data args)

/-- The anchor built by the template literal on line 14: the href holds
the encodeURI image of the url, the element opens in a new tab without a
referrer, and the visible text is the url itself, unmodified. -/
def anchorHtml (u : String) : String :=
  "<a href=\"" ++ encodeURI u ++
    "\" target=\"_blank\" rel=\"noreferrer\">" ++ u ++ "</a>"

/-- The observable UI effects the handler can emit: the remote call (with
its method, its request parameters and the freeze flag), a msgprint with
title, message and indicator, and the document reload. -/
inductive Event where
  | remoteCall : String → Option (List (String × JsVal)) → Bool → Event
  | msgprint : String → String → String → Event
  | reloadDoc : Event

/-- The method string passed to frappe.call on line 5. -/
def publishConfigMethod : String := "ftg_lead_radar.api.publish_config"

/-- The remote call event the handler issues: the publish_config method,
no request parameters, freeze set. -/
def publishCallEvent : Event :=
  Event.remoteCall publishConfigMethod none true

/-- How the awaited remote call settles: with a resolved response value,
or with a rejection carrying an error. -/
inductive CallOutcome where
  | resolved : JsVal → CallOutcome
  | rejected : String → CallOutcome

/-- The click handler of the custom button (lines 3 to 27): the trace of
emitted events paired with the completion of the async function, which is
an error exactly when the awaited call rejected or an access threw; the
error value is propagated unchanged, never caught or transformed. -/
def execute (out : CallOutcome) : List Event × Except String Unit :=
  match out with
  | CallOutcome.rejected e => ([publishCallEvent], Except.error e)
  | CallOutcome.resolved r =>
    match extractCommitUrl r with
    | Except.error e => ([publishCallEvent], Except.error e)
    | Except.ok commit_url =>
      if truthy commit_url then
        ([publishCallEvent,
          Event.msgprint (frappeTranslate "Published" [])
            (frappeTranslate "Committed to GitHub: {0}"
              [anchorHtml (jsToString commit_url)])
            "green",
          Event.reloadDoc],
         Except.ok ())
      else
        ([publishCallEvent,
          Event.msgprint (frappeTranslate "Published" [])
            (frappeTranslate "Committed to GitHub." [])
            "green",
          Event.reloadDoc],
         Except.ok ())

/-- Recognizer for remote call events. -/
def isRemoteCall : Event → Bool
  | Event.remoteCall _ _ _ => true
  | _ => false

/-- Recognizer for msgprint events. -/
def isMsgprint : Event → Bool
  | Event.msgprint _ _ _ => true
  | _ => false

/-- Recognizer for reload events. -/
def isReload : Event → Bool
  | Event.reloadDoc => true
  | _ => false

/-- The title of a msgprint event. -/
def msgTitle : Event → Option String
  | Event.msgprint t _ _ => some t
  | _ => none

/-- The indicator of a msgprint event. -/
def msgIndicator : Event → Option String
  | Event.msgprint _ _ i => some i
  | _ => none

/-- Optional chaining never throws: both steps of the extraction return a
value for every base. -/
lemma jsOptChain_ok (v : JsVal) (k : String) :
    ∃ w, jsOptChain v k = Except.ok w := by
  cases v <;> simp [jsOptChain, jsMember]

/-- The extraction r?.message?.commit_url is total: it returns a value
for every resolved response. -/
lemma extractCommitUrl_ok (r : JsVal) :
    ∃ v, extractCommitUrl r = Except.ok v := by
  obtain ⟨m, hm⟩ := jsOptChain_ok r "message"
  obtain ⟨v, hv⟩ := jsOptChain_ok m "commit_url"
  exact ⟨v, by simp [extractCommitUrl, hm, hv]⟩

/-- Translation of the title string is the identity here. -/
lemma frappeTranslate_published :
    frappeTranslate "Published" [] = "Published" := rfl

/-- Translation of the generic confirmation is the identity here. -/
lemma frappeTranslate_generic :
    frappeTranslate "Committed to GitHub." [] = "Committed to GitHub." :=
  rfl

/-- The placeholder form used on line 13 concatenates the literal prefix
with the substituted argument. -/
lemma frappeTranslate_fmt (a : String) :
    frappeTranslate "Committed to GitHub: {0}" [a] =
      "Committed to GitHub: " ++ a := by
  cases a with
  | mk d =>
    simp [frappeTranslate, formatChars]
    rfl

/-- Every resolved response produces the three-event success trace: the
remote call, one green msgprint titled Published, then the reload. -/
lemma executeResolvedShape (r : JsVal) :
    ∃ msg, execute (CallOutcome.resolved r) =
      ([publishCallEvent, Event.msgprint "Published" msg "green",
        Event.reloadDoc], Except.ok ()) := by
  obtain ⟨v, hv⟩ := extractCommitUrl_ok r
  cases htv : truthy v
  · exact ⟨"Committed to GitHub.",
      by simp [execute, hv, htv, frappeTranslate_published,
        frappeTranslate_generic]⟩
  · exact ⟨frappeTranslate "Committed to GitHub: {0}"
      [anchorHtml (jsToString v)],
      by simp [execute, hv, htv, frappeTranslate_published]⟩

/-- The full trace when the extracted commit_url is a nonempty string. -/
lemma execute_withUrl (r : JsVal) (u : String)
    (h : extractCommitUrl r = Except.ok (JsVal.str u)) (hu : u ≠ "") :
    execute (CallOutcome.resolved r) =
      ([publishCallEvent,
        Event.msgprint "Published"
          ("Committed to GitHub: " ++ anchorHtml u) "green",
        Event.reloadDoc], Except.ok ()) := by
  have htv : truthy (JsVal.str u) = true := by
    simp [truthy]
    exact hu
  simp [execute, h, htv, jsToString, frappeTranslate_fmt,
    frappeTranslate_published]

/-- The full trace when the extracted commit_url is falsy. -/
lemma execute_generic (r : JsVal) (v : JsVal)
    (h : extractCommitUrl r = Except.ok v) (hf : truthy v = false) :
    execute (CallOutcome.resolved r) =
      ([publishCallEvent,
        Event.msgprint "Published" "Committed to GitHub." "green",
        Event.reloadDoc], Except.ok ()) := by
  simp [execute, h, hf, frappeTranslate_published, frappeTranslate_generic]

/-- The UTF-8 encoding of a code point is never empty. -/
lemma utf8Bytes_ne_nil (n : Nat) : utf8Bytes n ≠ [] := by
  unfold utf8Bytes
  split
  · simp
  · split
    · simp
    · split <;> simp

/-- Percent-encoding one character yields at least three characters. -/
lemma percentBytes_len (c : Char) : 3 ≤ (percentBytes c).length := by
  unfold percentBytes
  have h : ∀ (l : List Nat),
      ((l.map (fun b => ['%', hexDigit (b / 16), hexDigit (b % 16)])).flatten).length
        = 3 * l.length := by
    intro l
    induction l with
    | nil => simp
    | cons b rest ih =>
      simp [ih]
      omega
  rw [h]
  have hpos : 0 < (utf8Bytes c.toNat).length :=
    List.length_pos.mpr (utf8Bytes_ne_nil c.toNat)
  omega

/-- Encoding never shortens the character list. -/
lemma encodeURIChars_len_ge (l : List Char) :
    l.length ≤ (encodeURIChars l).length := by
  induction l with
  | nil => simp [encodeURIChars]
  | cons c rest ih =>
    simp only [encodeURIChars, List.length_append, List.length_cons]
    split
    · simp
      omega
    · have h3 := percentBytes_len c
      omega

/-- Encoding strictly lengthens the list when some character must be
escaped. -/
lemma encodeURIChars_len_lt (l : List Char)
    (h : ∃ c ∈ l, encodeURIKeeps c = false) :
    l.length < (encodeURIChars l).length := by
  induction l with
  | nil => simp at h
  | cons c rest ih =>
    simp only [encodeURIChars, List.length_append, List.length_cons]
    rcases h with ⟨d, hd, hkeep⟩
    rcases List.mem_cons.mp hd with rfl | hmem
    · rw [if_neg (by simp [hkeep])]
      have h3 := percentBytes_len d
      have hge := encodeURIChars_len_ge rest
      omega
    · have hlt := ih ⟨d, hmem, hkeep⟩
      split
      · simp
        omega
      · have h3 := percentBytes_len c
        omega

/-- When some character of the url needs escaping, the encoded form in
the href differs from the verbatim url. -/
lemma encodeURI_ne (u : String)
    (h : ∃ c ∈ u.data, encodeURIKeeps c = false) : encodeURI u ≠ u := by
  intro he
  have hdata : encodeURIChars u.data = u.data := congrArg String.data he
  have hlt := encodeURIChars_len_lt u.data h
  rw [hdata] at hlt
  omega

/-- The message of the with-url notification, regrouped so that the
anchor opening tag with both attributes stands as one prefix and the
visible link text with the closing tag as the remainder. -/
lemma message_decompose (u : String) :
    "Committed to GitHub: " ++ anchorHtml u =
      ("Committed to GitHub: <a href=\"" ++ encodeURI u ++
        "\" target=\"_blank\" rel=\"noreferrer\">") ++ u ++ "</a>" := by
  unfold anchorHtml
  simp only [← String.append_assoc]
  rfl

/-- C1: for a successful response whose commit_url is a nonempty string,
the handler emits exactly the remote call, then one notification titled
Published whose body holds an anchor with the percent-encoded url as
href, opening in a new context, with the literal url as visible text,
and then exactly one reload, in that order. -/
theorem publish_with_url_trace (r : JsVal) (u : String)
    (h : extractCommitUrl r = Except.ok (JsVal.str u)) (hu : u ≠ "") :
    execute (CallOutcome.resolved r) =
      ([publishCallEvent,
        Event.msgprint "Published"
          ("Committed to GitHub: " ++
            ("<a href=\"" ++ encodeURI u ++
              "\" target=\"_blank\" rel=\"noreferrer\">" ++ u ++ "</a>"))
          "green",
        Event.reloadDoc], Except.ok ()) ∧
      (execute (CallOutcome.resolved r)).1.countP isMsgprint = 1 ∧
      (execute (CallOutcome.resolved r)).1.countP isReload = 1 := by
  refine ⟨execute_withUrl r u h hu, ?_, ?_⟩ <;>
    rw [execute_withUrl r u h hu] <;> rfl

/-- C1 witness: the trace at the concrete response of the spec. -/
theorem publish_with_url_trace_witness :
    execute (CallOutcome.resolved (JsVal.obj [("message",
        JsVal.obj [("commit_url",
          JsVal.str "https://github.com/org/repo/commit/abc123")])])) =
      ([publishCallEvent,
        Event.msgprint "Published"
          ("Committed to GitHub: " ++
            ("<a href=\"" ++
              encodeURI "https://github.com/org/repo/commit/abc123" ++
              "\" target=\"_blank\" rel=\"noreferrer\">" ++
              "https://github.com/org/repo/commit/abc123" ++ "</a>"))
          "green",
        Event.reloadDoc], Except.ok ()) ∧
      (execute (CallOutcome.resolved (JsVal.obj [("message",
        JsVal.obj [("commit_url",
          JsVal.str "https://github.com/org/repo/commit/abc123")])]))).1.countP
          isMsgprint = 1 ∧
      (execute (CallOutcome.resolved (JsVal.obj [("message",
        JsVal.obj [("commit_url",
          JsVal.str "https://github.com/org/repo/commit/abc123")])]))).1.countP
          isReload = 1 :=
  publish_with_url_trace _ _ rfl (by decide)

/-- C2: when the url holds a character encodeURI must escape, the emitted
notification carries the anchor whose href is the encodeURI image of the
url while the visible text stays the verbatim url, and the encoded form
really differs from the verbatim url. -/
theorem href_encoded_text_verbatim (r : JsVal) (u : String)
    (h : extractCommitUrl r = Except.ok (JsVal.str u)) (hu : u ≠ "")
    (hc : ∃ c ∈ u.data, encodeURIKeeps c = false) :
    (Event.msgprint "Published"
        ("Committed to GitHub: " ++
          ("<a href=\"" ++ encodeURI u ++
            "\" target=\"_blank\" rel=\"noreferrer\">" ++ u ++ "</a>"))
        "green") ∈ (execute (CallOutcome.resolved r)).1 ∧
      encodeURI u ≠ u := by
  refine ⟨?_, encodeURI_ne u hc⟩
  rw [execute_withUrl r u h hu]
  exact List.Mem.tail _ (List.Mem.head _)

/-- C2 witness: a url with a space and a query string. -/
theorem href_encoded_text_verbatim_witness :
    (Event.msgprint "Published"
        ("Committed to GitHub: " ++
          ("<a href=\"" ++ encodeURI "https://github.com/a b?q=1" ++
            "\" target=\"_blank\" rel=\"noreferrer\">" ++
            "https://github.com/a b?q=1" ++ "</a>"))
        "green") ∈ (execute (CallOutcome.resolved (JsVal.obj [("message",
          JsVal.obj [("commit_url",
            JsVal.str "https://github.com/a b?q=1")])]))).1 ∧
      encodeURI "https://github.com/a b?q=1" ≠
        "https://github.com/a b?q=1" :=
  href_encoded_text_verbatim _ _ rfl (by decide) (by decide)

/-- C3: a rejected remote call leaves a trace with the call alone, no
notification and no reload, and the handler completes with the very
error it received, uncaught and untransformed. -/
theorem rejected_no_effects (e : String) :
    execute (CallOutcome.rejected e) =
      ([publishCallEvent], Except.error e) ∧
    (execute (CallOutcome.rejected e)).1.countP isMsgprint = 0 ∧
    (execute (CallOutcome.rejected e)).1.countP isReload = 0 ∧
    (execute (CallOutcome.rejected e)).2 = Except.error e :=
  ⟨rfl, rfl, rfl, rfl⟩

/-- C4: a successful response with an absent or falsy commit_url yields
the generic confirmation text, which holds no markup at all, and the
reload still runs exactly once. -/
theorem falsy_generic_trace (r : JsVal) (v : JsVal)
    (h : extractCommitUrl r = Except.ok v) (hf : truthy v = false) :
    execute (CallOutcome.resolved r) =
      ([publishCallEvent,
        Event.msgprint "Published" "Committed to GitHub." "green",
        Event.reloadDoc], Except.ok ()) ∧
    "Committed to GitHub.".data.contains '<' = false ∧
    (execute (CallOutcome.resolved r)).1.countP isReload = 1 := by
  refine ⟨execute_generic r v h hf, by decide, ?_⟩
  rw [execute_generic r v h hf]
  rfl

/-- C4 witness: the empty object response of the spec. -/
theorem falsy_generic_trace_witness :
    execute (CallOutcome.resolved (JsVal.obj [])) =
      ([publishCallEvent,
        Event.msgprint "Published" "Committed to GitHub." "green",
        Event.reloadDoc], Except.ok ()) ∧
    "Committed to GitHub.".data.contains '<' = false ∧
    (execute (CallOutcome.resolved (JsVal.obj []))).1.countP isReload
      = 1 :=
  falsy_generic_trace (JsVal.obj []) JsVal.undefined rfl rfl

/-- C5: whenever a notification sits at position i of a trace and a
reload at position j, then i comes strictly before j, the outcome was a
resolved response, and the remote call stands at position 0, strictly
before the notification. -/
theorem reload_after_msgprint_after_success (out : CallOutcome)
    (i j : Nat) (e1 e2 : Event)
    (h1 : (execute out).1.get? i = some e1) (hm : isMsgprint e1 = true)
    (h2 : (execute out).1.get? j = some e2) (hr : isReload e2 = true) :
    i < j ∧ (∃ r, out = CallOutcome.resolved r) ∧
      (execute out).1.get? 0 = some publishCallEvent ∧ 0 < i := by
  cases out with
  | rejected e =>
    exfalso
    rcases i with _ | i
    · rw [← Option.some.inj h1] at hm
      simp [publishCallEvent, isMsgprint] at hm
    · exact Option.noConfusion h1
  | resolved r =>
    obtain ⟨msg, hs⟩ := executeResolvedShape r
    have ht : (execute (CallOutcome.resolved r)).1 =
        [publishCallEvent, Event.msgprint "Published" msg "green",
         Event.reloadDoc] := by
      rw [hs]
    rw [ht] at h1 h2
    have hi : i = 1 := by
      rcases i with _ | _ | _ | i
      · rw [← Option.some.inj h1] at hm
        simp [publishCallEvent, isMsgprint] at hm
      · rfl
      · rw [← Option.some.inj h1] at hm
        simp [isMsgprint] at hm
      · exact Option.noConfusion h1
    have hj : j = 2 := by
      rcases j with _ | _ | _ | j
      · rw [← Option.some.inj h2] at hr
        simp [publishCallEvent, isReload] at hr
      · rw [← Option.some.inj h2] at hr
        simp [isReload] at hr
      · rfl
      · exact Option.noConfusion h2
    subst hi
    subst hj
    refine ⟨by omega, ⟨r, rfl⟩, ?_, by omega⟩
    rw [ht]
    rfl

/-- C5 witness: the ordering at the empty-object response. -/
theorem reload_after_msgprint_after_success_witness :
    1 < 2 ∧
    (∃ r, CallOutcome.resolved (JsVal.obj []) =
      CallOutcome.resolved r) ∧
    (execute (CallOutcome.resolved (JsVal.obj []))).1.get? 0 =
      some publishCallEvent ∧ 0 < 1 :=
  reload_after_msgprint_after_success
    (CallOutcome.resolved (JsVal.obj [])) 1 2
    (Event.msgprint "Published" "Committed to GitHub." "green")
    Event.reloadDoc rfl rfl rfl rfl

/-- C6: every resolved response, whatever its shape, yields exactly one
remote call, exactly one notification and exactly one reload, and the
remote call names publish_config and carries no request parameters. -/
theorem single_call_msg_reload (r : JsVal) :
    (execute (CallOutcome.resolved r)).1.countP isRemoteCall = 1 ∧
    (execute (CallOutcome.resolved r)).1.countP isMsgprint = 1 ∧
    (execute (CallOutcome.resolved r)).1.countP isReload = 1 ∧
    (execute (CallOutcome.resolved r)).1.get? 0 =
      some (Event.remoteCall publishConfigMethod none true) := by
  obtain ⟨msg, hs⟩ := executeResolvedShape r
  refine ⟨?_, ?_, ?_, ?_⟩ <;> rw [hs] <;> rfl

/-- C7: every notification a resolved response produces is titled
Published and carries the green success indicator, in both variants. -/
theorem notification_title_indicator (r : JsVal) (e : Event)
    (he : e ∈ (execute (CallOutcome.resolved r)).1)
    (hm : isMsgprint e = true) :
    msgTitle e = some "Published" ∧ msgIndicator e = some "green" := by
  obtain ⟨msg, hs⟩ := executeResolvedShape r
  have ht : (execute (CallOutcome.resolved r)).1 =
      [publishCallEvent, Event.msgprint "Published" msg "green",
       Event.reloadDoc] := by
    rw [hs]
  rw [ht] at he
  rcases he with _ | ⟨_, he⟩
  · simp [publishCallEvent, isMsgprint] at hm
  · rcases he with _ | ⟨_, he⟩
    · exact ⟨rfl, rfl⟩
    · rcases he with _ | ⟨_, he⟩
      · simp [isMsgprint] at hm
      · exact absurd he (List.not_mem_nil e)

/-- C7 witness: the notification of the empty-object response. -/
theorem notification_title_indicator_witness :
    msgTitle (Event.msgprint "Published" "Committed to GitHub." "green")
      = some "Published" ∧
    msgIndicator (Event.msgprint "Published" "Committed to GitHub."
      "green") = some "green" :=
  notification_title_indicator (JsVal.obj [])
    (Event.msgprint "Published" "Committed to GitHub." "green")
    (List.Mem.tail _ (List.Mem.head _)) rfl

/-- C8: the anchor of every with-url notification carries both the
target blank and the rel noreferrer attributes, spelled out in the text
standing between the href and the link text. -/
theorem anchor_target_blank_noreferrer (r : JsVal) (u : String)
    (h : extractCommitUrl r = Except.ok (JsVal.str u)) (hu : u ≠ "") :
    ∃ pre, (Event.msgprint "Published" (pre ++ u ++ "</a>") "green")
        ∈ (execute (CallOutcome.resolved r)).1 ∧
      pre = "Committed to GitHub: <a href=\"" ++ encodeURI u ++
        "\" target=\"_blank\" rel=\"noreferrer\">" := by
  refine ⟨"Committed to GitHub: <a href=\"" ++ encodeURI u ++
    "\" target=\"_blank\" rel=\"noreferrer\">", ?_, rfl⟩
  rw [execute_withUrl r u h hu, ← message_decompose u]
  exact List.Mem.tail _ (List.Mem.head _)

/-- C8 witness: both attributes at the concrete commit url. -/
theorem anchor_target_blank_noreferrer_witness :
    ∃ pre, (Event.msgprint "Published"
        (pre ++ "https://github.com/org/repo/commit/abc123" ++ "</a>")
        "green")
        ∈ (execute (CallOutcome.resolved (JsVal.obj [("message",
            JsVal.obj [("commit_url",
              JsVal.str "https://github.com/org/repo/commit/abc123")])]))).1 ∧
      pre = "Committed to GitHub: <a href=\"" ++
        encodeURI "https://github.com/org/repo/commit/abc123" ++
        "\" target=\"_blank\" rel=\"noreferrer\">" :=
  anchor_target_blank_noreferrer _ _ rfl (by decide)

/-- C9: the character sequence of every with-url notification body is
the anchor prefix, then the characters of the url itself with no
escaping applied, then the closing tag: markup-significant characters of
the url reach the message unchanged. -/
theorem link_text_unescaped (r : JsVal) (u : String)
    (h : extractCommitUrl r = Except.ok (JsVal.str u)) (hu : u ≠ "") :
    ∃ msg, (Event.msgprint "Published" msg "green")
        ∈ (execute (CallOutcome.resolved r)).1 ∧
      msg.data = ("Committed to GitHub: <a href=\"" ++ encodeURI u ++
        "\" target=\"_blank\" rel=\"noreferrer\">").data ++ u.data ++
        "</a>".data := by
  refine ⟨"Committed to GitHub: " ++ anchorHtml u, ?_, ?_⟩
  · rw [execute_withUrl r u h hu]
    exact List.Mem.tail _ (List.Mem.head _)
  · rw [message_decompose u]
    simp [String.data_append]

/-- C9 witness: a url holding raw markup characters. -/
theorem link_text_unescaped_witness :
    ∃ msg, (Event.msgprint "Published" msg "green")
        ∈ (execute (CallOutcome.resolved (JsVal.obj [("message",
            JsVal.obj [("commit_url",
              JsVal.str "https://x.dev/<img>&\"")])]))).1 ∧
      msg.data = ("Committed to GitHub: <a href=\"" ++
        encodeURI "https://x.dev/<img>&\"" ++
        "\" target=\"_blank\" rel=\"noreferrer\">").data ++
        "https://x.dev/<img>&\"".data ++ "</a>".data :=
  link_text_unescaped _ _ rfl (by decide)

/-- C10: extracting commit_url never throws, whatever value the call
resolved with, and every falsy extraction takes the generic notification
branch followed by the reload. -/
theorem extraction_total_generic (r : JsVal) :
    (∃ v, extractCommitUrl r = Except.ok v) ∧
    (∀ v, extractCommitUrl r = Except.ok v → truthy v = false →
      execute (CallOutcome.resolved r) =
        ([publishCallEvent,
          Event.msgprint "Published" "Committed to GitHub." "green",
          Event.reloadDoc], Except.ok ())) :=
  ⟨extractCommitUrl_ok r, fun v hv hf => execute_generic r v hv hf⟩

/-- C10 witness: the undefined response takes the generic branch. -/
theorem extraction_total_generic_witness :
    execute (CallOutcome.resolved JsVal.undefined) =
      ([publishCallEvent,
        Event.msgprint "Published" "Committed to GitHub." "green",
        Event.reloadDoc], Except.ok ()) :=
  (extraction_total_generic JsVal.undefined).2 JsVal.undefined rfl rfl
